import Mathlib

/-!
Verification of the hydra ray launcher plugin: a shallow embedding of
`_launcher_util.py` and `_remote_invoke.py`.

External effects (spawned processes, the metadata endpoint, the distributed
execution layer) are modelled as explicit oracle inputs; the pickled files
exchanged between the local and remote side are modelled as lists of
naturals with an executable encoder/decoder.
-/

namespace RayLauncher

/-- Serialized binary content (pickle bytes), modelled as a list of naturals. -/
abbrev Bytes := List Nat

/-- File name of the job-spec pickle (`_launcher_util.py` line 18). -/
def JOB_SPEC_PICKLE : String := "job_spec.pkl"

/-- File name of the job-returns pickle (`_launcher_util.py` line 19). -/
def JOB_RETURN_PICKLE : String := "returns.pkl"

/-- Model of `os.path.join` for a directory and a relative file name. -/
def pathJoin (d f : String) : String := d ++ "/" ++ f

/-- Model of Python `list += string`: the list is extended with the string's
characters, each becoming a separate element.  This is what the source's
`args += "--docker"` lines do (`_launcher_util.py` lines 93, 109, 136). -/
def charTokens (s : String) : List String := s.data.map (fun c => String.mk [c])

/-- Argument-vector head built by `ray_exec`, `ray_tmp_dir` and `ray_new_dir`:
`["ray", "exec"]`, extended character-wise with `"--docker"` when the docker
flag is set. -/
def execBaseArgs (docker : Bool) : List String :=
  if docker then ["ray", "exec"] ++ charTokens "--docker" else ["ray", "exec"]

/-- Argument vector passed to the external process by `ray_exec`
(`_launcher_util.py` lines 131-138). -/
def ray_exec_args (yaml_path : String) (docker : Bool)
    (file_path pickle_path : String) : List String :=
  execBaseArgs docker ++ [yaml_path, "python " ++ file_path ++ " " ++ pickle_path]

/-- Argument vector passed to the external process by `ray_new_dir`
(`_launcher_util.py` lines 103-113). -/
def ray_new_dir_args (yaml_path : String) (new_dir : String) (docker : Bool) :
    List String :=
  execBaseArgs docker ++ [yaml_path, "mkdir -p " ++ new_dir]

/-- Argument vector of the mktemp command issued by `ray_tmp_dir`
(`_launcher_util.py` line 95). -/
def ray_tmp_dir_mktemp_args (yaml_path : String) (docker : Bool) : List String :=
  execBaseArgs docker ++ [yaml_path, "echo $(mktemp -d)"]

/-- Argument vector of the removal command issued by `ray_tmp_dir`
(`_launcher_util.py` line 99). -/
def ray_tmp_dir_rm_args (yaml_path : String) (docker : Bool) (tmp_path : String) :
    List String :=
  execBaseArgs docker ++ [yaml_path, "rm -rf " ++ tmp_path]

/-- Observable outcome of one spawned external process: its captured textual
stdout and stderr, and its exit code. -/
structure ProcResult where
  stdout : String
  stderr : String
  exitCode : Int
deriving DecidableEq

/-- Model of `_run_command` (`_launcher_util.py` lines 68-79): the decoded and
stripped stdout and stderr are returned; no field other than the two output
streams is consulted, in particular the exit code is never read and no
exception is raised on a non-zero exit. -/
def _run_command (args : List String) (proc : ProcResult) : String × String :=
  let _ := args
  (proc.stdout.trim, proc.stderr.trim)

/-- Model of one managed use of the `ray_tmp_dir` context manager
(`_launcher_util.py` lines 89-101).  `mktempProc` is the external process run
for the mktemp command; `body` is the with-block, which either returns a value
or raises.  The result is the list of argument vectors issued to the external
CLI, in order, paired with the body's outcome.  Because the generator has no
try/finally, an exception thrown into the generator at the yield point
propagates before the removal command is ever issued. -/
def ray_tmp_dir_run {ε α : Type} (yaml_path : String) (docker : Bool)
    (mktempProc : ProcResult) (body : String → Except ε α) :
    List (List String) × Except ε α :=
  let out := (_run_command (ray_tmp_dir_mktemp_args yaml_path docker) mktempProc).1
  let tmp_path := out.trim
  match body tmp_path with
  | Except.ok a =>
      ([ray_tmp_dir_mktemp_args yaml_path docker,
        ray_tmp_dir_rm_args yaml_path docker tmp_path], Except.ok a)
  | Except.error e =>
      ([ray_tmp_dir_mktemp_args yaml_path docker], Except.error e)

/-- The `key_pair` section of the provider config. -/
structure KeyPairConfig where
  key_name : Option String
deriving DecidableEq

/-- The `provider` section of a cluster config. -/
structure ProviderConfig where
  key_pair : Option KeyPairConfig
  region : String
deriving DecidableEq

/-- The `auth` section of a cluster config. -/
structure AuthConfig where
  ssh_private_key : Option String
deriving DecidableEq

/-- The parts of a cluster yaml consulted by `_get_pem`. -/
structure ClusterConfig where
  auth : AuthConfig
  provider : ProviderConfig
deriving DecidableEq

/-- Model of `os.path.expanduser` with an explicit home directory: a sole `~`
or a leading `~/` component is replaced by `home`; anything else is returned
unchanged. -/
def expanduser (home : String) (p : String) : String :=
  match p.data with
  | ['~'] => home
  | '~' :: '/' :: rest => home ++ String.mk ('/' :: rest)
  | _ => p

/-- Model of `_get_pem` (`_launcher_util.py` lines 147-156).  The first lookup
is guarded by `is not None` (so an empty string is returned unchanged), the
second by Python truthiness (so an empty string falls through to the region
fallback); the second branch applies `expanduser` twice, as the source does. -/
def _get_pem (home : String) (cfg : ClusterConfig) : String :=
  match cfg.auth.ssh_private_key with
  | some key_name => key_name
  | none =>
    match cfg.provider.key_pair.bind KeyPairConfig.key_name with
    | some key_name =>
      if key_name = "" then
        expanduser home ("~/.ssh/ray-autoscaler_" ++ cfg.provider.region ++ ".pem")
      else
        expanduser home (expanduser home ("~/.ssh/" ++ key_name ++ ".pem"))
    | none =>
      expanduser home ("~/.ssh/ray-autoscaler_" ++ cfg.provider.region ++ ".pem")

/-- Little-endian base-10 digits of a natural number (never empty; `0` has
digit list `[0]`). -/
def decDigits (n : Nat) : List Nat :=
  if n < 10 then [n] else (n % 10) :: decDigits (n / 10)
decreasing_by
  exact Nat.div_lt_self (by omega) (by omega)

/-- Decimal digit character, codepoint 48 + d. -/
def digitChar10 (d : Nat) : Char := Char.ofNat (48 + d)

/-- Decimal rendering of a natural number, as produced by Python's string
interpolation of a nonnegative int. -/
def decimalStr (n : Nat) : String :=
  String.mk ((decDigits n).reverse.map digitChar10)

/-- Job identifier assigned by the remote entry point: the f-string
`instance_id + "_" + job num` (`_remote_invoke.py` lines 42-44). -/
def assignJobId (instance_id : String) (num : Nat) : String :=
  instance_id ++ "_" ++ decimalStr num

/-- The parts of one hydra sweep (job) configuration read or written by the
remote entry point: `hydra.job.num`, `hydra.job.id`, `hydra.sweep.dir` and
the launcher's two ray config blocks (kept as opaque serialized blobs). -/
structure SweepConfig where
  jobNum : Nat
  jobId : String
  sweepDir : String
  rayInitCfg : Bytes
  rayRemoteCfg : Bytes
deriving DecidableEq

/-- Contents of the job-spec pickle, with the three keys read by
`launch_jobs` (`_remote_invoke.py` lines 32-34).  Per the spec's data model
the task callable is exchanged as a serialized reference, kept opaque here. -/
structure JobSpec where
  singleton_state : Bytes
  sweep_configs : List SweepConfig
  task_function : Bytes
deriving DecidableEq

/-- Modelled from the spec: `hydra.core.utils.JobReturn` is repository code
outside the provided sources; the spec describes it as the outcome of one job
execution, a return value or a failure indicator. -/
inductive JobReturn where
  | value (v : Nat)
  | failure (msg : String)
deriving DecidableEq

/-- Modelled from the spec: behaviour of one task execution on the remote
side, which either returns normally or raises. -/
inductive TaskOutcome where
  | returns (v : Nat)
  | raises (msg : String)
deriving DecidableEq

/-- Semantics oracle for the distributed execution of the pickled task: given
the serialized task reference, the singleton-state snapshot and one sweep
config, it yields what that single job execution does. -/
abbrev TaskSem := Bytes → Bytes → SweepConfig → TaskOutcome

/-- Modelled from the spec: the distributed execution layer captures an
exception raised during one job's execution and surfaces it as that job's
individual result (spec section 4.3 failure semantics); blocking on a handle
returns the captured outcome. -/
def rayGet (o : TaskOutcome) : JobReturn :=
  match o with
  | TaskOutcome.returns v => JobReturn.value v
  | TaskOutcome.raises m => JobReturn.failure m

/-- Encoder for a natural. -/
def encNat (n : Nat) : Bytes := [n]

/-- Decoder for a natural, returning the remainder of the input. -/
def decNat : Bytes → Option (Nat × Bytes)
  | [] => none
  | n :: rest => some (n, rest)

/-- Take exactly `n` items, failing when fewer are available. -/
def decTake : Nat → Bytes → Option (Bytes × Bytes)
  | 0, bs => some ([], bs)
  | _ + 1, [] => none
  | n + 1, b :: bs => (decTake n bs).map (fun p => (b :: p.1, p.2))

/-- Length-prefixed encoder for an opaque blob. -/
def encBytes (b : Bytes) : Bytes := b.length :: b

/-- Decoder matching `encBytes`. -/
def decBytes (bs : Bytes) : Option (Bytes × Bytes) :=
  match bs with
  | [] => none
  | n :: rest => decTake n rest

/-- Length-prefixed encoder for a string, one codepoint per item. -/
def encString (s : String) : Bytes := s.data.length :: s.data.map Char.toNat

/-- Decoder matching `encString`. -/
def decString (bs : Bytes) : Option (String × Bytes) :=
  match bs with
  | [] => none
  | n :: rest =>
    (decTake n rest).map (fun p => (String.mk (p.1.map Char.ofNat), p.2))

/-- Encoder for one sweep config. -/
def encSweepConfig (c : SweepConfig) : Bytes :=
  encNat c.jobNum ++ encString c.jobId ++ encString c.sweepDir ++
    encBytes c.rayInitCfg ++ encBytes c.rayRemoteCfg

/-- Decoder matching `encSweepConfig`. -/
def decSweepConfig (bs : Bytes) : Option (SweepConfig × Bytes) := do
  let (n, bs) ← decNat bs
  let (jid, bs) ← decString bs
  let (dir, bs) ← decString bs
  let (ri, bs) ← decBytes bs
  let (rr, bs) ← decBytes bs
  pure (⟨n, jid, dir, ri, rr⟩, bs)

/-- Length-prefixed encoder for a list, given an element encoder. -/
def encListWith {α : Type} (f : α → Bytes) (xs : List α) : Bytes :=
  xs.length :: (xs.map f).flatten

/-- Decode `n` consecutive elements with the given element decoder. -/
def decListWith {α : Type} (f : Bytes → Option (α × Bytes)) :
    Nat → Bytes → Option (List α × Bytes)
  | 0, bs => some ([], bs)
  | n + 1, bs => do
    let (a, bs) ← f bs
    let (as, bs) ← decListWith f n bs
    pure (a :: as, bs)

/-- Encoder for the whole job-spec pickle. -/
def encJobSpec (s : JobSpec) : Bytes :=
  encBytes s.singleton_state ++ encListWith encSweepConfig s.sweep_configs ++
    encBytes s.task_function

/-- Decoder matching `encJobSpec`. -/
def decJobSpec (bs : Bytes) : Option (JobSpec × Bytes) := do
  let (st, bs) ← decBytes bs
  let (n, bs) ← decNat bs
  let (cs, bs) ← decListWith decSweepConfig n bs
  let (tf, bs) ← decBytes bs
  pure (⟨st, cs, tf⟩, bs)

/-- Deserialization of the job-spec file: the whole content must be consumed. -/
def decodeJobSpecFile (bs : Bytes) : Option JobSpec :=
  match decJobSpec bs with
  | some (s, []) => some s
  | _ => none

/-- Encoder for one job result. -/
def encJobReturn : JobReturn → Bytes
  | JobReturn.value v => 0 :: encNat v
  | JobReturn.failure m => 1 :: encString m

/-- Decoder matching `encJobReturn`. -/
def decJobReturn : Bytes → Option (JobReturn × Bytes)
  | 0 :: bs => (decNat bs).map (fun p => (JobReturn.value p.1, p.2))
  | 1 :: bs => (decString bs).map (fun p => (JobReturn.failure p.1, p.2))
  | _ => none

/-- Serialization of the job-returns file (`_dump_job_return`,
`_remote_invoke.py` lines 66-71). -/
def encodeJobReturnsFile (rs : List JobReturn) : Bytes :=
  encListWith encJobReturn rs

/-- Deserialization of the job-returns file: the whole content must be
consumed. -/
def decodeJobReturnsFile (bs : Bytes) : Option (List JobReturn) :=
  match bs with
  | [] => none
  | n :: rest =>
    match decListWith decJobReturn n rest with
    | some (rs, []) => some rs
    | _ => none

/-- A flat file store: newest entry for a path wins on lookup. -/
abbrev FileSystem := List (String × Bytes)

/-- Read a file's bytes, if present. -/
def fsRead (fs : FileSystem) (p : String) : Option Bytes :=
  (fs.find? (fun e => e.1 == p)).map Prod.snd

/-- Write (or overwrite) a file. -/
def fsWrite (fs : FileSystem) (p : String) (b : Bytes) : FileSystem :=
  (p, b) :: fs

/-- Errors the remote entry point can raise before any result is written. -/
inductive LaunchError where
  | fileNotFound
  | unpicklingError
deriving DecidableEq

/-- The job-id assignment performed on each sweep config inside the
submission loop (`_remote_invoke.py` lines 40-44). -/
def withJobId (instance_id : String) (c : SweepConfig) : SweepConfig :=
  { c with jobId := assignJobId instance_id c.jobNum }

/-- The ordered result list collected by `launch_jobs`: one entry per sweep
config, in submission order, each the captured outcome of running the task on
that config. -/
def resultsOf (sem : TaskSem) (instance_id : String) (spec : JobSpec) :
    List JobReturn :=
  (spec.sweep_configs.map (withJobId instance_id)).map
    (fun c => rayGet (sem spec.task_function spec.singleton_state c))

/-- Model of `launch_jobs` (`_remote_invoke.py` lines 28-63): read and decode
the job-spec pickle from the temporary directory (a missing file is a
missing-file error, undecodable content an unpickling error, both leaving the
file store unchanged); assign each config its job id; submit every job,
retaining the handles in order; block on all handles in submission order; and
write the encoded result list to the returns pickle. -/
def launch_jobs (sem : TaskSem) (instance_id : String) (fs : FileSystem)
    (temp_dir : String) : FileSystem × Option LaunchError :=
  match fsRead fs (pathJoin temp_dir JOB_SPEC_PICKLE) with
  | none => (fs, some LaunchError.fileNotFound)
  | some bs =>
    match decodeJobSpecFile bs with
    | none => (fs, some LaunchError.unpicklingError)
    | some job_spec =>
      let result := resultsOf sem instance_id job_spec
      (fsWrite fs (pathJoin temp_dir JOB_RETURN_PICKLE)
        (encodeJobReturnsFile result), none)

/-- Submission and collection events of one run of the entry point. -/
inductive JobEvent where
  | submit (i : Nat)
  | collect (i : Nat)
deriving DecidableEq

/-- Event trace of `launch_jobs` on a batch of `n` jobs, mirroring the
source's control flow: the for loop appends one submission per config, and
only after the loop does the comprehension block on the handles, in the same
order. -/
def launch_jobs_events (n : Nat) : List JobEvent :=
  let submits := (List.range n).foldl (fun acc i => acc ++ [JobEvent.submit i]) []
  let collects := (List.range n).foldl (fun acc i => acc ++ [JobEvent.collect i]) []
  submits ++ collects

/-- Concrete task semantics where every job returns 0. -/
def semEx : TaskSem := fun _ _ _ => TaskOutcome.returns 0

/-- Concrete task semantics where the job with sequence number 1 raises. -/
def semFailEx : TaskSem := fun _ _ c =>
  if c.jobNum = 1 then TaskOutcome.raises "boom" else TaskOutcome.returns c.jobNum

/-- Concrete sweep config with sequence number 0. -/
def cfgA : SweepConfig := ⟨0, "", "d", [], []⟩

/-- Concrete sweep config with sequence number 1. -/
def cfgB : SweepConfig := ⟨1, "", "d", [], []⟩

/-- Concrete two-job spec. -/
def specEx : JobSpec := ⟨[1], [cfgA, cfgB], [2]⟩

/-- Concrete zero-job spec. -/
def specEmptyEx : JobSpec := ⟨[1], [], [2]⟩

/-- File store holding the encoded two-job spec at the expected path. -/
def fsEx : FileSystem := [(pathJoin "/tmp/t" JOB_SPEC_PICKLE, encJobSpec specEx)]

/-- File store holding the encoded zero-job spec at the expected path. -/
def fsEmptyEx : FileSystem := [(pathJoin "/tmp/t" JOB_SPEC_PICKLE, encJobSpec specEmptyEx)]

/-- Concrete cluster config: no explicit private key, a named key pair. -/
def clusterCfgEx : ClusterConfig := ⟨⟨none⟩, ⟨some ⟨some "mykey"⟩, "us-west-2"⟩⟩

/-! Helper lemmas. -/

lemma decDigits_eq (n : Nat) :
    decDigits n = if n < 10 then [n] else (n % 10) :: decDigits (n / 10) := by
  rw [decDigits]

lemma decDigits_all_lt (n : Nat) : ∀ d ∈ decDigits n, d < 10 := by
  induction n using Nat.strong_induction_on with
  | _ n ih =>
    rw [decDigits_eq]
    by_cases h : n < 10
    · simp only [if_pos h, List.mem_singleton]
      intro d hd
      omega
    · simp only [if_neg h, List.mem_cons]
      intro d hd
      rcases hd with rfl | hd
      · omega
      · exact ih (n / 10) (Nat.div_lt_self (by omega) (by omega)) d hd

lemma unparse_decDigits (n : Nat) :
    (decDigits n).foldr (fun d a => d + 10 * a) 0 = n := by
  induction n using Nat.strong_induction_on with
  | _ n ih =>
    rw [decDigits_eq]
    by_cases h : n < 10
    · simp [h]
    · simp only [if_neg h, List.foldr_cons]
      rw [ih (n / 10) (Nat.div_lt_self (by omega) (by omega))]
      omega

lemma decDigits_inj {a b : Nat} (h : decDigits a = decDigits b) : a = b := by
  have ha := unparse_decDigits a
  have hb := unparse_decDigits b
  rw [h] at ha
  omega

lemma digitChar10_inj :
    ∀ a : Nat, a < 10 → ∀ b : Nat, b < 10 → digitChar10 a = digitChar10 b → a = b := by
  decide

lemma map_digitChar10_inj :
    ∀ l1 l2 : List Nat, (∀ d ∈ l1, d < 10) → (∀ d ∈ l2, d < 10) →
      l1.map digitChar10 = l2.map digitChar10 → l1 = l2 := by
  intro l1
  induction l1 with
  | nil =>
    intro l2 _ _ h
    cases l2 with
    | nil => rfl
    | cons b t2 => simp at h
  | cons a t ih =>
    intro l2 h1 h2 h
    cases l2 with
    | nil => simp at h
    | cons b t2 =>
      simp only [List.map_cons, List.cons.injEq] at h
      have hab : a = b :=
        digitChar10_inj a (h1 a (by simp)) b (h2 b (by simp)) h.1
      have ht : t = t2 :=
        ih t2 (fun d hd => h1 d (by simp [hd])) (fun d hd => h2 d (by simp [hd])) h.2
      rw [hab, ht]

lemma decimalStr_inj {a b : Nat} (h : decimalStr a = decimalStr b) : a = b := by
  unfold decimalStr at h
  have hd : (decDigits a).reverse.map digitChar10 = (decDigits b).reverse.map digitChar10 :=
    congrArg String.data h
  have hrev := map_digitChar10_inj _ _
    (fun d hd' => decDigits_all_lt a d (List.mem_reverse.mp hd'))
    (fun d hd' => decDigits_all_lt b d (List.mem_reverse.mp hd')) hd
  exact decDigits_inj (List.reverse_injective hrev)

lemma assignJobId_inj (iid : String) {a b : Nat}
    (h : assignJobId iid a = assignJobId iid b) : a = b := by
  unfold assignJobId at h
  have hd := congrArg String.data h
  simp only [String.data_append] at hd
  have h2 := List.append_cancel_left hd
  exact decimalStr_inj (String.ext h2)

lemma map_ofNat_toNat (l : List Char) : List.map (Char.ofNat ∘ Char.toNat) l = l := by
  induction l with
  | nil => rfl
  | cons c t ih => simp [ih, Char.ofNat_toNat]

lemma decNat_enc (n : Nat) (r : Bytes) : decNat (encNat n ++ r) = some (n, r) := rfl

lemma decTake_append (b r : Bytes) : decTake b.length (b ++ r) = some (b, r) := by
  induction b with
  | nil => rfl
  | cons x t ih => simp [decTake, ih]

lemma decBytes_enc (b r : Bytes) : decBytes (encBytes b ++ r) = some (b, r) := by
  simp [encBytes, decBytes, decTake_append]

lemma decString_enc (s : String) (r : Bytes) : decString (encString s ++ r) = some (s, r) := by
  unfold encString decString
  simp only [List.cons_append]
  rw [show s.data.length = (s.data.map Char.toNat).length by simp]
  rw [decTake_append]
  simp [List.map_map, map_ofNat_toNat]

lemma decSweepConfig_enc (c : SweepConfig) (r : Bytes) :
    decSweepConfig (encSweepConfig c ++ r) = some (c, r) := by
  obtain ⟨n, jid, dir, ri, rr⟩ := c
  simp [encSweepConfig, decSweepConfig, List.append_assoc, decNat_enc, decString_enc,
    decBytes_enc]

lemma decListWith_enc {α : Type} (f : α → Bytes) (g : Bytes → Option (α × Bytes))
    (hfg : ∀ a r, g (f a ++ r) = some (a, r)) :
    ∀ (xs : List α) (r : Bytes),
      decListWith g xs.length ((xs.map f).flatten ++ r) = some (xs, r) := by
  intro xs
  induction xs with
  | nil => intro r; simp [decListWith]
  | cons a t ih =>
    intro r
    simp [decListWith, List.append_assoc, hfg, ih]

lemma decJobSpec_enc (s : JobSpec) (r : Bytes) :
    decJobSpec (encJobSpec s ++ r) = some (s, r) := by
  obtain ⟨st, cs, tf⟩ := s
  have hl := decListWith_enc encSweepConfig decSweepConfig decSweepConfig_enc
  simp [encJobSpec, encListWith, decJobSpec, List.append_assoc, decBytes_enc, decNat, hl]

lemma decodeJobSpecFile_enc (s : JobSpec) : decodeJobSpecFile (encJobSpec s) = some s := by
  have h := decJobSpec_enc s []
  rw [List.append_nil] at h
  simp [decodeJobSpecFile, h]

lemma decJobReturn_enc (j : JobReturn) (r : Bytes) :
    decJobReturn (encJobReturn j ++ r) = some (j, r) := by
  cases j with
  | value v => simp [encJobReturn, decJobReturn, decNat_enc]
  | failure m =>
    simp only [encJobReturn, List.cons_append, decJobReturn]
    rw [decString_enc]
    rfl

lemma decodeJobReturnsFile_enc (rs : List JobReturn) :
    decodeJobReturnsFile (encodeJobReturnsFile rs) = some rs := by
  have h := decListWith_enc encJobReturn decJobReturn decJobReturn_enc rs []
  rw [List.append_nil] at h
  simp [encodeJobReturnsFile, encListWith, decodeJobReturnsFile, h]

lemma fsRead_fsWrite (fs : FileSystem) (p : String) (b : Bytes) :
    fsRead (fsWrite fs p b) p = some b := by
  simp [fsRead, fsWrite]

lemma expanduser_no_tilde (home p : String) (h : p.data.head? ≠ some '~') :
    expanduser home p = p := by
  unfold expanduser
  split
  · rename_i heq
    rw [heq] at h
    simp at h
  · rename_i rest heq
    rw [heq] at h
    simp at h
  · rfl

lemma expanduser_pem (home k : String) (hh : home.data.head? ≠ some '~') :
    expanduser home (expanduser home ("~/.ssh/" ++ k ++ ".pem")) =
      expanduser home ("~/.ssh/" ++ k ++ ".pem") := by
  have hs : ("~/.ssh/" ++ k ++ ".pem").data
      = '~' :: '/' :: (['.', 's', 's', 'h', '/'] ++ (k.data ++ ".pem".data)) := by
    simp [String.data_append]
  have h1 : expanduser home ("~/.ssh/" ++ k ++ ".pem")
      = home ++ String.mk ('/' :: (['.', 's', 's', 'h', '/'] ++ (k.data ++ ".pem".data))) := by
    unfold expanduser
    rw [hs]
    rfl
  rw [h1]
  apply expanduser_no_tilde
  rw [String.data_append]
  rcases hd : home.data with _ | ⟨c, t⟩
  · simp
  · rw [hd] at hh
    simp only [List.head?_cons, ne_eq, Option.some.injEq] at hh
    simp [hh]

lemma rm_args_ne_mktemp_args (y : String) (d : Bool) (tmp : String) :
    ray_tmp_dir_rm_args y d tmp ≠ ray_tmp_dir_mktemp_args y d := by
  unfold ray_tmp_dir_rm_args ray_tmp_dir_mktemp_args
  intro h
  have h2 := List.append_cancel_left h
  simp only [List.cons.injEq] at h2
  have h3 := h2.2.1
  have hd := congrArg String.data h3
  rw [String.data_append] at hd
  rw [show ("rm -rf ").data = ['r', 'm', ' ', '-', 'r', 'f', ' '] from rfl] at hd
  rw [show ("echo $(mktemp -d)").data
      = ['e', 'c', 'h', 'o', ' ', '$', '(', 'm', 'k', 't', 'e', 'm', 'p', ' ', '-', 'd', ')']
    from rfl] at hd
  simp at hd

lemma foldl_append_map {α β : Type} (f : α → β) :
    ∀ (l : List α) (acc : List β),
      l.foldl (fun acc i => acc ++ [f i]) acc = acc ++ l.map f := by
  intro l
  induction l with
  | nil => intro acc; simp
  | cons a t ih => intro acc; simp [ih]

lemma launch_jobs_events_eq (n : Nat) :
    launch_jobs_events n
      = (List.range n).map JobEvent.submit ++ (List.range n).map JobEvent.collect := by
  unfold launch_jobs_events
  rw [foldl_append_map, foldl_append_map]
  simp

/-! Claim theorems. -/

/-- C1: when the spec file at the expected path holds an encoded job spec with
N ordered configs, the entry point completes without error; every submission
event precedes every collection event (the loop submits all N jobs, the
comprehension then blocks on the handles in the same order); and the written
returns file holds exactly N results whose i-th entry is the captured outcome
of the i-th submitted config. -/
theorem launch_jobs_order_and_count (sem : TaskSem) (instance_id : String)
    (fs : FileSystem) (temp_dir : String) (spec : JobSpec)
    (hread : fsRead fs (pathJoin temp_dir JOB_SPEC_PICKLE) = some (encJobSpec spec)) :
    (launch_jobs sem instance_id fs temp_dir).2 = none ∧
    fsRead (launch_jobs sem instance_id fs temp_dir).1 (pathJoin temp_dir JOB_RETURN_PICKLE)
      = some (encodeJobReturnsFile (resultsOf sem instance_id spec)) ∧
    decodeJobReturnsFile (encodeJobReturnsFile (resultsOf sem instance_id spec))
      = some (resultsOf sem instance_id spec) ∧
    (resultsOf sem instance_id spec).length = spec.sweep_configs.length ∧
    (∀ i, ∀ hi : i < spec.sweep_configs.length,
      (resultsOf sem instance_id spec)[i]?
        = some (rayGet (sem spec.task_function spec.singleton_state
            (withJobId instance_id (spec.sweep_configs.get ⟨i, hi⟩))))) ∧
    launch_jobs_events spec.sweep_configs.length
      = (List.range spec.sweep_configs.length).map JobEvent.submit ++
        (List.range spec.sweep_configs.length).map JobEvent.collect := by
  have hdec := decodeJobSpecFile_enc spec
  refine ⟨by simp [launch_jobs, hread, hdec],
          by simp [launch_jobs, hread, hdec, fsRead_fsWrite],
          decodeJobReturnsFile_enc _,
          by simp [resultsOf],
          ?_,
          launch_jobs_events_eq _⟩
  intro i hi
  simp only [resultsOf, List.getElem?_map]
  rw [List.getElem?_eq_getElem hi]
  simp [List.get_eq_getElem]

/-- C1 witness: concrete two-job batch. -/
theorem launch_jobs_order_and_count_witness :
    (launch_jobs semEx "i-abc" fsEx "/tmp/t").2 = none ∧
    (resultsOf semEx "i-abc" specEx).length = specEx.sweep_configs.length ∧
    (resultsOf semEx "i-abc" specEx)[0]?
      = some (rayGet (semEx specEx.task_function specEx.singleton_state
          (withJobId "i-abc" (specEx.sweep_configs.get ⟨0, by decide⟩)))) := by
  have h := launch_jobs_order_and_count semEx "i-abc" fsEx "/tmp/t" specEx (by decide)
  exact ⟨h.1, h.2.2.2.1, h.2.2.2.2.1 0 (by decide)⟩

/-- C2: at the failing input docker = true, the argument vectors built by
ray_exec, ray_new_dir and ray_tmp_dir contain the characters of "--docker" as
eight separate single-character tokens between the subcommand and the
cluster-config path, and no single "--docker" token anywhere, because the
source extends the Python list with a string (which appends its characters)
instead of wrapping it in a list. -/
theorem ray_exec_docker_args_charwise :
    ray_exec_args "cluster.yaml" true "file.py" "spec.pkl"
      = ["ray", "exec", "-", "-", "d", "o", "c", "k", "e", "r",
         "cluster.yaml", "python file.py spec.pkl"] ∧
    "--docker" ∉ ray_exec_args "cluster.yaml" true "file.py" "spec.pkl" ∧
    "--docker" ∉ ray_new_dir_args "cluster.yaml" "/new" true ∧
    "--docker" ∉ ray_tmp_dir_mktemp_args "cluster.yaml" true ∧
    "--docker" ∉ ray_tmp_dir_rm_args "cluster.yaml" true "/tmp/x" := by
  decide

/-- C3: within one batch, the entry point's job-id assignment gives configs
with distinct sequence numbers distinct identifiers; every assigned identifier
is the instance identity, an underscore and the decimal sequence number, and
hence contains the instance identity obtained from the metadata endpoint. -/
theorem job_ids_distinct_and_contain_instance_id (instance_id : String)
    (c1 c2 : SweepConfig) (h : c1.jobNum ≠ c2.jobNum) :
    (withJobId instance_id c1).jobId ≠ (withJobId instance_id c2).jobId ∧
    (∀ c : SweepConfig, (withJobId instance_id c).jobId
      = instance_id ++ "_" ++ decimalStr c.jobNum) ∧
    (∀ c : SweepConfig, ∃ rest, (withJobId instance_id c).jobId = instance_id ++ rest) := by
  refine ⟨?_, fun c => rfl, fun c => ⟨"_" ++ decimalStr c.jobNum, ?_⟩⟩
  · intro hid
    exact h (assignJobId_inj instance_id hid)
  · simp [withJobId, assignJobId, String.append_assoc]

/-- C3 witness: sequence numbers 0 and 1. -/
theorem job_ids_distinct_and_contain_instance_id_witness :
    (withJobId "i-abc" cfgA).jobId ≠ (withJobId "i-abc" cfgB).jobId ∧
    (∀ c : SweepConfig, (withJobId "i-abc" c).jobId
      = "i-abc" ++ "_" ++ decimalStr c.jobNum) ∧
    (∀ c : SweepConfig, ∃ rest, (withJobId "i-abc" c).jobId = "i-abc" ++ rest) :=
  job_ids_distinct_and_contain_instance_id "i-abc" cfgA cfgB (by decide)

/-- C4: _run_command returns the trimmed stdout and stderr texts; its result
depends only on the two output streams and never on the exit code, and being a
total function it raises no error on a non-zero exit. -/
theorem run_command_ignores_exit_code (args : List String) (p q : ProcResult)
    (hout : p.stdout = q.stdout) (herr : p.stderr = q.stderr) :
    _run_command args p = _run_command args q ∧
    (_run_command args p).1 = p.stdout.trim ∧
    (_run_command args p).2 = p.stderr.trim := by
  simp [_run_command, hout, herr]

/-- C4 witness: identical streams, exit codes 0 and 1. -/
theorem run_command_ignores_exit_code_witness :
    _run_command ["ray", "up", "-y", "c.yaml"] ⟨" ok ", "", 0⟩
      = _run_command ["ray", "up", "-y", "c.yaml"] ⟨" ok ", "", 1⟩ ∧
    (_run_command ["ray", "up", "-y", "c.yaml"] ⟨" ok ", "", 0⟩).1 = " ok ".trim ∧
    (_run_command ["ray", "up", "-y", "c.yaml"] ⟨" ok ", "", 0⟩).2 = "".trim :=
  run_command_ignores_exit_code ["ray", "up", "-y", "c.yaml"]
    ⟨" ok ", "", 0⟩ ⟨" ok ", "", 1⟩ rfl rfl

/-- C5: when the spec file is absent at the expected path under the temporary
directory, the entry point fails with the missing-file error and the file
store is returned unchanged, so no job-returns file is written. -/
theorem launch_jobs_missing_spec_file (sem : TaskSem) (instance_id : String)
    (fs : FileSystem) (temp_dir : String)
    (hmiss : fsRead fs (pathJoin temp_dir JOB_SPEC_PICKLE) = none) :
    launch_jobs sem instance_id fs temp_dir = (fs, some LaunchError.fileNotFound) := by
  simp [launch_jobs, hmiss]

/-- C5 witness: empty file store. -/
theorem launch_jobs_missing_spec_file_witness :
    launch_jobs semEx "i-abc" [] "/tmp/t" = ([], some LaunchError.fileNotFound) :=
  launch_jobs_missing_spec_file semEx "i-abc" [] "/tmp/t" rfl

/-- C6: a spec file with zero job configurations is processed without error
and an encoded empty result sequence is written to the output path. -/
theorem launch_jobs_empty_spec (sem : TaskSem) (instance_id : String)
    (fs : FileSystem) (temp_dir : String) (st tf : Bytes)
    (hread : fsRead fs (pathJoin temp_dir JOB_SPEC_PICKLE)
      = some (encJobSpec ⟨st, [], tf⟩)) :
    (launch_jobs sem instance_id fs temp_dir).2 = none ∧
    fsRead (launch_jobs sem instance_id fs temp_dir).1 (pathJoin temp_dir JOB_RETURN_PICKLE)
      = some (encodeJobReturnsFile []) ∧
    decodeJobReturnsFile (encodeJobReturnsFile []) = some [] := by
  have hdec := decodeJobSpecFile_enc (⟨st, [], tf⟩ : JobSpec)
  refine ⟨by simp [launch_jobs, hread, hdec], ?_, decodeJobReturnsFile_enc []⟩
  have hres : resultsOf sem instance_id ⟨st, [], tf⟩ = [] := rfl
  simp [launch_jobs, hread, hdec, fsRead_fsWrite, hres]

/-- C6 witness: concrete zero-job spec. -/
theorem launch_jobs_empty_spec_witness :
    (launch_jobs semEx "i-abc" fsEmptyEx "/tmp/t").2 = none ∧
    fsRead (launch_jobs semEx "i-abc" fsEmptyEx "/tmp/t").1 (pathJoin "/tmp/t" JOB_RETURN_PICKLE)
      = some (encodeJobReturnsFile []) ∧
    decodeJobReturnsFile (encodeJobReturnsFile []) = some [] :=
  launch_jobs_empty_spec semEx "i-abc" fsEmptyEx "/tmp/t" [1] [2] (by decide)

/-- C7: round-trip law of the serialization used for the two exchanged files:
decoding an encoded job spec yields the same spec, and decoding an encoded
result sequence yields the same sequence. -/
theorem pickle_roundtrip :
    (∀ s : JobSpec, decodeJobSpecFile (encJobSpec s) = some s) ∧
    (∀ rs : List JobReturn, decodeJobReturnsFile (encodeJobReturnsFile rs) = some rs) :=
  ⟨decodeJobSpecFile_enc, decodeJobReturnsFile_enc⟩

/-- C8: when the task raises on the j-th config of an N-job batch, the batch
still completes: the returns file is written, holds N entries, the j-th entry
is that job's captured failure, and every other entry is the captured outcome
of its own config. -/
theorem launch_jobs_failing_job_isolated (sem : TaskSem) (instance_id : String)
    (fs : FileSystem) (temp_dir : String) (spec : JobSpec) (j : Nat) (msg : String)
    (hread : fsRead fs (pathJoin temp_dir JOB_SPEC_PICKLE) = some (encJobSpec spec))
    (hj : j < spec.sweep_configs.length)
    (hfail : sem spec.task_function spec.singleton_state
        (withJobId instance_id (spec.sweep_configs.get ⟨j, hj⟩))
      = TaskOutcome.raises msg) :
    (launch_jobs sem instance_id fs temp_dir).2 = none ∧
    fsRead (launch_jobs sem instance_id fs temp_dir).1 (pathJoin temp_dir JOB_RETURN_PICKLE)
      = some (encodeJobReturnsFile (resultsOf sem instance_id spec)) ∧
    (resultsOf sem instance_id spec).length = spec.sweep_configs.length ∧
    (resultsOf sem instance_id spec)[j]? = some (JobReturn.failure msg) ∧
    (∀ i, ∀ hi : i < spec.sweep_configs.length, i ≠ j →
      (resultsOf sem instance_id spec)[i]?
        = some (rayGet (sem spec.task_function spec.singleton_state
            (withJobId instance_id (spec.sweep_configs.get ⟨i, hi⟩))))) := by
  have hdec := decodeJobSpecFile_enc spec
  refine ⟨by simp [launch_jobs, hread, hdec],
          by simp [launch_jobs, hread, hdec, fsRead_fsWrite],
          by simp [resultsOf], ?_, ?_⟩
  · simp only [resultsOf, List.getElem?_map]
    rw [List.getElem?_eq_getElem hj]
    simp only [Option.map_some', List.get_eq_getElem] at hfail ⊢
    rw [hfail]
    rfl
  · intro i hi _
    simp only [resultsOf, List.getElem?_map]
    rw [List.getElem?_eq_getElem hi]
    simp [List.get_eq_getElem]

/-- C8 witness: two-job batch whose second job raises. -/
theorem launch_jobs_failing_job_isolated_witness :
    (launch_jobs semFailEx "i-abc" fsEx "/tmp/t").2 = none ∧
    (resultsOf semFailEx "i-abc" specEx)[1]? = some (JobReturn.failure "boom") ∧
    (resultsOf semFailEx "i-abc" specEx)[0]?
      = some (rayGet (semFailEx specEx.task_function specEx.singleton_state
          (withJobId "i-abc" (specEx.sweep_configs.get ⟨0, by decide⟩)))) := by
  have h := launch_jobs_failing_job_isolated semFailEx "i-abc" fsEx "/tmp/t" specEx 1 "boom"
    (by decide) (by decide) (by decide)
  exact ⟨h.1, h.2.2.2.1, h.2.2.2.2 0 (by decide) (by decide)⟩

/-- C9: the removal command for the remote temporary directory is issued (as
the last issued command) exactly when the managed block completes normally;
when the block raises, only the mktemp command was issued and no removal
command for any directory appears in the trace. -/
theorem ray_tmp_dir_removes_only_on_success {ε α : Type} (yaml_path : String)
    (docker : Bool) (mktempProc : ProcResult) (body : String → Except ε α) :
    ((∃ a, body ((_run_command (ray_tmp_dir_mktemp_args yaml_path docker) mktempProc).1.trim)
        = Except.ok a) →
      (ray_tmp_dir_run yaml_path docker mktempProc body).1
        = [ray_tmp_dir_mktemp_args yaml_path docker,
           ray_tmp_dir_rm_args yaml_path docker
             ((_run_command (ray_tmp_dir_mktemp_args yaml_path docker) mktempProc).1.trim)]) ∧
    ((∃ e, body ((_run_command (ray_tmp_dir_mktemp_args yaml_path docker) mktempProc).1.trim)
        = Except.error e) →
      (ray_tmp_dir_run yaml_path docker mktempProc body).1
        = [ray_tmp_dir_mktemp_args yaml_path docker] ∧
      ∀ tmp, ray_tmp_dir_rm_args yaml_path docker tmp ∉
        (ray_tmp_dir_run yaml_path docker mktempProc body).1) := by
  constructor
  · rintro ⟨a, ha⟩
    simp [ray_tmp_dir_run, ha]
  · rintro ⟨e, he⟩
    refine ⟨by simp [ray_tmp_dir_run, he], ?_⟩
    intro tmp hmem
    simp [ray_tmp_dir_run, he] at hmem
    exact rm_args_ne_mktemp_args yaml_path docker tmp hmem

/-- C9 witness: a body that returns and a body that raises. -/
theorem ray_tmp_dir_removes_only_on_success_witness :
    (ray_tmp_dir_run "c.yaml" false ⟨"/tmp/x", "", 0⟩
        (fun _ => (Except.ok 0 : Except String Nat))).1
      = [ray_tmp_dir_mktemp_args "c.yaml" false,
         ray_tmp_dir_rm_args "c.yaml" false
           ((_run_command (ray_tmp_dir_mktemp_args "c.yaml" false)
               ⟨"/tmp/x", "", 0⟩).1.trim)] ∧
    (ray_tmp_dir_run "c.yaml" false ⟨"/tmp/x", "", 0⟩
        (fun _ => (Except.error "boom" : Except String Nat))).1
      = [ray_tmp_dir_mktemp_args "c.yaml" false] := by
  constructor
  · exact (ray_tmp_dir_removes_only_on_success "c.yaml" false ⟨"/tmp/x", "", 0⟩
      (fun _ => (Except.ok 0 : Except String Nat))).1 ⟨0, rfl⟩
  · exact ((ray_tmp_dir_removes_only_on_success "c.yaml" false ⟨"/tmp/x", "", 0⟩
      (fun _ => (Except.error "boom" : Except String Nat))).2 ⟨"boom", rfl⟩).1

/-- C10: precedence of the derived private-key path: an explicit
auth.ssh_private_key (even empty) is returned unchanged; otherwise a
non-empty provider.key_pair.key_name gives the user-expanded
~/.ssh/(key_name).pem; otherwise (key name absent or empty, which Python
truthiness sends to the fallback) the user-expanded
~/.ssh/ray-autoscaler_(region).pem. -/
theorem get_pem_precedence (home : String) (cfg : ClusterConfig)
    (hhome : home.data.head? ≠ some '~') :
    (∀ k, cfg.auth.ssh_private_key = some k → _get_pem home cfg = k) ∧
    (cfg.auth.ssh_private_key = none →
      ∀ k, cfg.provider.key_pair.bind KeyPairConfig.key_name = some k → k ≠ "" →
        _get_pem home cfg = expanduser home ("~/.ssh/" ++ k ++ ".pem")) ∧
    (cfg.auth.ssh_private_key = none →
      (cfg.provider.key_pair.bind KeyPairConfig.key_name = none ∨
       cfg.provider.key_pair.bind KeyPairConfig.key_name = some "") →
        _get_pem home cfg = expanduser home
          ("~/.ssh/ray-autoscaler_" ++ cfg.provider.region ++ ".pem")) := by
  refine ⟨?_, ?_, ?_⟩
  · intro k hk
    simp [_get_pem, hk]
  · intro h1 k hk hne
    simp only [_get_pem, h1, hk]
    rw [if_neg hne]
    exact expanduser_pem home k hhome
  · intro h1 h2
    rcases h2 with h2 | h2 <;> simp [_get_pem, h1, h2]

/-- C10 witness: key-pair branch with a named key. -/
theorem get_pem_precedence_witness :
    _get_pem "/home/u" clusterCfgEx = "/home/u/.ssh/mykey.pem" := by
  have h := (get_pem_precedence "/home/u" clusterCfgEx (by decide)).2.1 rfl "mykey" rfl
    (by decide)
  exact h.trans (by decide)

end RayLauncher
